import Mathlib

/-!
Shallow embedding of the PathGenius course-progression and content-generation
core (src/src/app/course/[id]/module/[moduleId]/page.tsx and the curation
loader) together with theorems settling the frozen claims about it.

JavaScript numeric rounding `Math.round(num/den)` on non-negative rationals is
modelled as `jsRound num den = (2*num + den) / (2*den)` over `Nat`; JavaScript
string falsiness (`undefined`, `null`, `""`) is modelled over `Option String`.
-/

namespace PathGenius

/-- Math.round of the rational num/den (den > 0): round-half-up. -/
def jsRound (num den : Nat) : Nat := (2 * num + den) / (2 * den)

/-- JavaScript falsiness of a possibly-missing string field: `undefined`,
`null` and the empty string are falsy. -/
def strFalsy : Option String → Bool
  | none => true
  | some s => s.isEmpty

/-- JavaScript truthiness of a possibly-missing string field. -/
def strTruthy (o : Option String) : Bool := !(strFalsy o)

/-- A topic of a module (src/src/app/types/course.ts `ModuleTopic`): `content`
and `videoId` are optional fields. -/
structure ModuleTopic where
  id : String
  title : String
  content : Option String
  videoId : Option String
deriving DecidableEq, Repr

/-- The predicate selecting topics for the backfill pass
(page.tsx line 229: `!topic.content && !topic.videoId`). -/
def needsContent (t : ModuleTopic) : Bool :=
  strFalsy t.content && strFalsy t.videoId

/-- Outcome of a single generation request issued by the backfill retry loop
(page.tsx lines 246-269): a 2xx response carrying optional `content` and
`videoId` fields, an HTTP 409 conflict, another non-ok HTTP status, or a
transport failure (the fetch threw and was caught at line 267). -/
inductive GenAttempt where
  | okResponse (content : Option String) (videoId : Option String)
  | conflict409
  | httpFailure
  | transportFailure
deriving DecidableEq, Repr

/-- One iteration of the retry loop body (page.tsx lines 244-275): the loop
runs only while both `content` and `videoId` are still falsy; a 2xx response
assigns both fields from the response, every other outcome leaves them
unchanged (409 and transport failures only sleep / log). -/
def retryStep (st : Option String × Option String) (a : GenAttempt) :
    Option String × Option String :=
  if strFalsy st.1 && strFalsy st.2 then
    match a with
    | .okResponse c v => (c, v)
    | _ => st
  else st

/-- The bounded retry loop `while (retries < 3 && !content && !videoId)`
(page.tsx line 244) applied to the sequence of attempt outcomes. -/
def runGenRetries (attempts : List GenAttempt) : Option String × Option String :=
  (attempts.take 3).foldl retryStep (none, none)

/-- The failure placeholder content string of the (dead) outer catch block
(page.tsx line 288). -/
def failurePlaceholder (title : String) : String :=
  "# " ++ title ++ "\n\nFailed to load content."

/-- After the retry loop, the generated fields are written onto the topic only
when truthy (page.tsx lines 279-280: `if (content) ...; if (videoId) ...`). -/
def applyGenResult (t : ModuleTopic) (r : Option String × Option String) :
    ModuleTopic :=
  { t with
    content := if strTruthy r.1 then r.1 else t.content
    videoId := if strTruthy r.2 then r.2 else t.videoId }

/-- In-place update of the first topic with the given id
(page.tsx line 277: `updatedTopics.findIndex(t => t.id === topic.id)` followed
by assignment at that index). -/
def updateTopicById : List ModuleTopic → String → (ModuleTopic → ModuleTopic) →
    List ModuleTopic
  | [], _, _ => []
  | t :: ts, tid, f =>
    if t.id = tid then f t :: ts else t :: updateTopicById ts tid f

/-- The backfill pass over a topic list (page.tsx lines 228-294): every topic
needing content is processed sequentially; its retry loop's result is written
back into the working list by id. The outer per-topic catch (lines 283-291),
which would write `failurePlaceholder`, can never fire for generation
failures: the inner catch at line 267 swallows every thrown fetch error and a
non-ok response throws nothing, so it is absent from this exception-free
model. `oracle` gives the attempt outcomes of each topic's generation calls,
keyed by topic id. -/
def backfillPass (topics : List ModuleTopic) (oracle : String → List GenAttempt) :
    List ModuleTopic :=
  (topics.filter (fun t => needsContent t)).foldl
    (fun acc t =>
      updateTopicById acc t.id (fun u => applyGenResult u (runGenRetries (oracle t.id))))
    topics

/-- CLAIM C1. The claim states that after the backfill pass no topic is left
with both `content` and `videoId` empty: when all 3 attempts fail, a failure
placeholder embedding the topic title is supposedly written. The code instead
leaves such a topic untouched — with a single empty topic whose three
generation attempts all fail by transport error (and likewise when all three
are HTTP 409 conflicts), the pass returns the topic unchanged, still needing
content, and its content differs from the advertised placeholder. -/
theorem backfill_total_failure_leaves_topic_empty :
    backfillPass [⟨"t1", "Topic One", none, none⟩]
        (fun _ => [.transportFailure, .transportFailure, .transportFailure]) =
      [⟨"t1", "Topic One", none, none⟩] ∧
    backfillPass [⟨"t1", "Topic One", none, none⟩]
        (fun _ => [.conflict409, .conflict409, .conflict409]) =
      [⟨"t1", "Topic One", none, none⟩] ∧
    needsContent ⟨"t1", "Topic One", none, none⟩ = true ∧
    (⟨"t1", "Topic One", none, none⟩ : ModuleTopic).content ≠
      some (failurePlaceholder "Topic One") := by
  refine ⟨rfl, rfl, rfl, by simp⟩

/-! ## Quiz answer collection and the submission gate (claim C2) -/

/-- Association lookup in a JavaScript record modelled as a key-ordered entry
list with unique keys (`quizAnswers[questionId]`). -/
def storeGet {α : Type} : List (String × α) → String → Option α
  | [], _ => none
  | (k, v) :: rest, q => if k = q then some v else storeGet rest q

/-- Insert-or-replace into a JavaScript record / Firestore collection modelled
as an entry list: an existing key keeps its position and gets the new value, a
new key is appended (object spread `{...prev, [k]: v}` and Firestore
`setDoc`). -/
def storeSet {α : Type} : List (String × α) → String → α → List (String × α)
  | [], k, v => [(k, v)]
  | (k0, v0) :: rest, k, v =>
    if k0 = k then (k, v) :: rest else (k0, v0) :: storeSet rest k v

/-- Recording a quiz answer (page.tsx lines 464-469 `handleQuizAnswerChange`):
plain record update, the empty string included. -/
def recordAnswer (answers : List (String × String)) (qid text : String) :
    List (String × String) :=
  storeSet answers qid text

/-- The only submission gate in the code: the Submit Quiz button's disabled
predicate (page.tsx line 967),
`Object.keys(quizAnswers).length < quizQuestions.length`. It counts recorded
answer keys and never inspects the answer texts. -/
def submitDisabled (questions : List String) (answers : List (String × String)) :
    Bool :=
  answers.length < questions.length

/-- The guard inside `handleSubmitQuiz` itself (page.tsx line 472:
`if (!user || !quizId) return;`): the evaluation network call is issued
whenever a user is present and the quizId string is truthy — no answer
validation happens there. -/
def submitMakesNetworkCall (hasUser : Bool) (quizId : String) : Bool :=
  hasUser && !quizId.isEmpty

/-- CLAIM C2 counterexample. The claim states that a quiz with a question
lacking a non-empty answer (an empty-string answer counts as lacking) is
rejected locally with no network call. With one question `q1` answered by the
empty string, the disabled predicate is false (the key is recorded), and
`handleSubmitQuiz` proceeds to the evaluation network call. -/
theorem submit_not_rejected_on_empty_answer :
    submitDisabled ["q1"] [("q1", "")] = false ∧
    storeGet [("q1", "")] "q1" = some "" ∧
    submitMakesNetworkCall true "quiz-1" = true := by
  refine ⟨rfl, by decide, by decide⟩

/-- Membership of a key in an entry list is equivalent to a successful
lookup. -/
theorem storeGet_isSome_iff_mem {α : Type} (l : List (String × α)) (q : String) :
    (storeGet l q).isSome = true ↔ q ∈ l.map Prod.fst := by
  induction l with
  | nil => simp [storeGet]
  | cons kv rest ih =>
    obtain ⟨k, v⟩ := kv
    by_cases hk : k = q
    · subst hk; simp [storeGet]
    · simp [storeGet, hk, ih, Ne.symm hk]

/-- CLAIM C2 amended. Submission is blocked only by the key-counting disabled
predicate: when the rendered question ids are distinct and every recorded
answer key is one of them (with distinct keys), the Submit button is disabled
exactly when some question has no recorded answer entry at all. An entry
whose text is the empty string counts as answered, and `handleSubmitQuiz`
performs no further validation before the network call. -/
theorem submit_gate_counts_keys_only (questions : List String)
    (answers : List (String × String))
    (hq : questions.Nodup) (ha : (answers.map Prod.fst).Nodup)
    (hsub : ∀ k ∈ answers.map Prod.fst, k ∈ questions) :
    submitDisabled questions answers = true ↔
      ∃ q ∈ questions, storeGet answers q = none := by
  constructor
  · intro hdis
    by_contra hall
    push_neg at hall
    have hsup : ∀ q ∈ questions, q ∈ answers.map Prod.fst := by
      intro q hqmem
      have := hall q hqmem
      have hsome : (storeGet answers q).isSome = true := by
        cases hget : storeGet answers q with
        | none => exact absurd hget this
        | some v => simp
      exact (storeGet_isSome_iff_mem answers q).mp hsome
    have hle : questions.length ≤ (answers.map Prod.fst).length := by
      have hcard : questions.toFinset.card ≤ (answers.map Prod.fst).toFinset.card := by
        apply Finset.card_le_card
        intro x hx
        rw [List.mem_toFinset] at hx ⊢
        exact hsup x hx
      rwa [List.toFinset_card_of_nodup hq, List.toFinset_card_of_nodup ha] at hcard
    rw [List.length_map] at hle
    rw [submitDisabled, decide_eq_true_iff] at hdis
    omega
  · rintro ⟨q, hqmem, hget⟩
    have hqnot : q ∉ answers.map Prod.fst := by
      intro hmem
      have := (storeGet_isSome_iff_mem answers q).mpr hmem
      rw [hget] at this
      simp at this
    have hssub : ∀ k ∈ answers.map Prod.fst, k ∈ questions.erase q := by
      intro k hk
      rcases eq_or_ne k q with rfl | hne
      · exact absurd hk hqnot
      · exact (List.mem_erase_of_ne hne).mpr (hsub k hk)
    have hlt : (answers.map Prod.fst).length < questions.length := by
      have hcard : (answers.map Prod.fst).toFinset.card ≤ (questions.erase q).toFinset.card := by
        apply Finset.card_le_card
        intro x hx
        rw [List.mem_toFinset] at hx ⊢
        exact hssub x hx
      rw [List.toFinset_card_of_nodup ha,
          List.toFinset_card_of_nodup (hq.erase q)] at hcard
      have := questions.length_erase_of_mem hqmem
      have hpos : 0 < questions.length := List.length_pos_of_mem hqmem
      omega
    rw [List.length_map] at hlt
    rw [submitDisabled, decide_eq_true_iff]
    omega

/-- Witness for the amended C2 theorem: two questions, one answered — the
button is disabled exactly because `q2` has no recorded entry. -/
theorem submit_gate_counts_keys_only_witness :
    submitDisabled ["q1", "q2"] [("q1", "x")] = true ↔
      ∃ q ∈ ["q1", "q2"], storeGet [("q1", "x")] q = none :=
  submit_gate_counts_keys_only ["q1", "q2"] [("q1", "x")]
    (by decide) (by decide) (by decide)

/-! ## Persisting quiz attempts (claim C3) -/

/-- A quiz question record as persisted and resumed
(`{id, question}` objects). -/
structure QuizQRec where
  id : String
  question : String
deriving DecidableEq, Repr

/-- The quiz attempt document written to `quizResults/{quizId}`
(page.tsx lines 499-509 and 516-526). -/
structure QuizResultDoc where
  userId : String
  courseId : String
  moduleId : String
  score : Int
  feedback : String
  completionStatus : String
  answers : List (String × String)
  questions : List QuizQRec
  completedAt : Nat
deriving DecidableEq, Repr

/-- Persisting an evaluation result (page.tsx lines 498-499 / 515-516):
`setDoc(doc(db, "quizResults", quizId), data)` — a full-document write at the
fixed id `quizId`, creating the document when absent and replacing it when
present. -/
def persistQuizResult (store : List (String × QuizResultDoc)) (quizId : String)
    (docData : QuizResultDoc) : List (String × QuizResultDoc) :=
  storeSet store quizId docData

/-- A lookup after a write at the same key returns the written value. -/
theorem storeGet_storeSet_self {α : Type} (s : List (String × α)) (k : String)
    (v : α) : storeGet (storeSet s k v) k = some v := by
  induction s with
  | nil => simp [storeSet, storeGet]
  | cons kv rest ih =>
    obtain ⟨k0, v0⟩ := kv
    by_cases hk : k0 = k
    · subst hk; simp [storeSet, storeGet]
    · simp [storeSet, storeGet, hk, ih]

/-- A lookup after a write at a different key is unchanged. -/
theorem storeGet_storeSet_other {α : Type} (s : List (String × α)) (k k' : String)
    (v : α) (h : k' ≠ k) : storeGet (storeSet s k v) k' = storeGet s k' := by
  induction s with
  | nil => simp [storeSet, storeGet, Ne.symm h]
  | cons kv rest ih =>
    obtain ⟨k0, v0⟩ := kv
    by_cases hk : k0 = k
    · subst hk
      simp [storeSet, storeGet, Ne.symm h]
    · by_cases hk' : k0 = k'
      · subst hk'; simp [storeSet, storeGet, hk]
      · simp [storeSet, storeGet, hk, hk', ih]

/-- CLAIM C3 counterexample. The claim states that resubmitting — the same
quizId included — never overwrites a previously stored attempt. Persisting a
second result under the same quizId replaces the first document: the store
holds a single document whose content is the second attempt, and the first
attempt is gone. -/
theorem resubmit_same_quizId_overwrites :
    persistQuizResult
        (persistQuizResult [] "quiz-1"
          ⟨"u", "c", "m", 40, "f1", "needs_review", [], [], 10⟩)
        "quiz-1" ⟨"u", "c", "m", 80, "f2", "completed", [], [], 20⟩ =
      [("quiz-1", ⟨"u", "c", "m", 80, "f2", "completed", [], [], 20⟩)] ∧
    storeGet
        (persistQuizResult
          (persistQuizResult [] "quiz-1"
            ⟨"u", "c", "m", 40, "f1", "needs_review", [], [], 10⟩)
          "quiz-1" ⟨"u", "c", "m", 80, "f2", "completed", [], [], 20⟩)
        "quiz-1" ≠
      some ⟨"u", "c", "m", 40, "f1", "needs_review", [], [], 10⟩ := by
  refine ⟨rfl, by decide⟩

/-- CLAIM C3 amended. Each submission persists the attempt document at the key
`quizId` via a full-document `setDoc` (an upsert): submissions under distinct
quizIds create and keep separate documents, but resubmitting the same quizId
replaces the previously stored attempt with the new one. -/
theorem persist_attempt_upsert (store : List (String × QuizResultDoc))
    (k1 k2 : String) (d1 d2 : QuizResultDoc) (hne : k1 ≠ k2) :
    storeGet (persistQuizResult (persistQuizResult store k1 d1) k2 d2) k1 =
      some d1 ∧
    storeGet (persistQuizResult (persistQuizResult store k1 d1) k2 d2) k2 =
      some d2 ∧
    storeGet (persistQuizResult (persistQuizResult store k1 d1) k1 d2) k1 =
      some d2 := by
  refine ⟨?_, ?_, ?_⟩
  · rw [persistQuizResult, persistQuizResult,
      storeGet_storeSet_other _ _ _ _ hne, storeGet_storeSet_self]
  · exact storeGet_storeSet_self _ _ _
  · exact storeGet_storeSet_self _ _ _

/-- Witness for the amended C3 theorem at two concrete quizIds. -/
theorem persist_attempt_upsert_witness :
    storeGet
      (persistQuizResult
        (persistQuizResult [] "quiz-1" ⟨"u", "c", "m", 40, "f", "needs_review", [], [], 10⟩)
        "quiz-2" ⟨"u", "c", "m", 80, "g", "completed", [], [], 20⟩) "quiz-1" =
      some ⟨"u", "c", "m", 40, "f", "needs_review", [], [], 10⟩ ∧
    storeGet
      (persistQuizResult
        (persistQuizResult [] "quiz-1" ⟨"u", "c", "m", 40, "f", "needs_review", [], [], 10⟩)
        "quiz-2" ⟨"u", "c", "m", 80, "g", "completed", [], [], 20⟩) "quiz-2" =
      some ⟨"u", "c", "m", 80, "g", "completed", [], [], 20⟩ ∧
    storeGet
      (persistQuizResult
        (persistQuizResult [] "quiz-1" ⟨"u", "c", "m", 40, "f", "needs_review", [], [], 10⟩)
        "quiz-1" ⟨"u", "c", "m", 80, "g", "completed", [], [], 20⟩) "quiz-1" =
      some ⟨"u", "c", "m", 80, "g", "completed", [], [], 20⟩ :=
  persist_attempt_upsert [] "quiz-1" "quiz-2" _ _ (by decide)

/-! ## Progress model: module and course progress writes (claims C4, C5) -/

/-- JavaScript `Array.from(new Set(l))`: removes duplicates keeping the first
occurrence of each element, in insertion order. `seen` accumulates the
elements already emitted. -/
def jsDedupAux (seen : List Nat) : List Nat → List Nat
  | [] => []
  | a :: l =>
    if a ∈ seen then jsDedupAux seen l else a :: jsDedupAux (a :: seen) l

/-- Membership in the dedup output. -/
theorem mem_jsDedupAux (l : List Nat) : ∀ (seen : List Nat) (x : Nat),
    x ∈ jsDedupAux seen l ↔ x ∈ l ∧ x ∉ seen := by
  induction l with
  | nil => intro seen x; simp [jsDedupAux]
  | cons a l ih =>
    intro seen x
    by_cases ha : a ∈ seen
    · simp only [jsDedupAux, if_pos ha, ih, List.mem_cons]
      constructor
      · rintro ⟨hxl, hxs⟩
        exact ⟨Or.inr hxl, hxs⟩
      · rintro ⟨hxa | hxl, hxs⟩
        · subst hxa; exact absurd ha hxs
        · exact ⟨hxl, hxs⟩
    · simp only [jsDedupAux, if_neg ha, List.mem_cons, ih]
      by_cases hxa : x = a
      · subst hxa; simp [ha]
      · simp [hxa]

/-- The dedup output has no duplicates. -/
theorem jsDedupAux_nodup (l : List Nat) : ∀ seen : List Nat,
    (jsDedupAux seen l).Nodup := by
  induction l with
  | nil => intro seen; simp [jsDedupAux]
  | cons a l ih =>
    intro seen
    by_cases ha : a ∈ seen
    · simpa [jsDedupAux, ha] using ih seen
    · rw [jsDedupAux, if_neg ha]
      refine List.nodup_cons.mpr ⟨?_, ih (a :: seen)⟩
      intro hmem
      exact ((mem_jsDedupAux l (a :: seen) a).mp hmem).2 (List.mem_cons_self a seen)

/-- Deduping a duplicate-free list disjoint from `seen` is the identity. -/
theorem jsDedupAux_fixed (l : List Nat) : ∀ seen : List Nat, l.Nodup →
    (∀ x ∈ l, x ∉ seen) → jsDedupAux seen l = l := by
  induction l with
  | nil => intro seen _ _; rfl
  | cons a l ih =>
    intro seen hnd hdis
    have ha : a ∉ seen := hdis a (List.mem_cons_self a l)
    rw [jsDedupAux, if_neg ha]
    congr 1
    refine ih (a :: seen) (List.nodup_cons.mp hnd).2 ?_
    intro x hx
    rw [List.mem_cons]
    rintro (rfl | hxs)
    · exact (List.nodup_cons.mp hnd).1 hx
    · exact hdis x (List.mem_cons_of_mem a hx) hxs

/-- Appending an element already present (in the list or among the already
emitted elements) does not change the dedup output. -/
theorem jsDedupAux_append (l : List Nat) : ∀ (seen : List Nat) (x : Nat),
    x ∈ seen ∨ x ∈ l → jsDedupAux seen (l ++ [x]) = jsDedupAux seen l := by
  induction l with
  | nil =>
    intro seen x hx
    rcases hx with hx | hx
    · simp [jsDedupAux, hx]
    · simp at hx
  | cons a l ih =>
    intro seen x hx
    by_cases ha : a ∈ seen
    · rw [List.cons_append, jsDedupAux, if_pos ha, jsDedupAux, if_pos ha]
      refine ih seen x ?_
      rcases hx with hx | hx
      · exact Or.inl hx
      · rcases List.mem_cons.mp hx with rfl | hxl
        · exact Or.inl ha
        · exact Or.inr hxl
    · rw [List.cons_append, jsDedupAux, if_neg ha, jsDedupAux, if_neg ha]
      congr 1
      refine ih (a :: seen) x ?_
      rcases hx with hx | hx
      · exact Or.inl (List.mem_cons_of_mem a hx)
      · rcases List.mem_cons.mp hx with rfl | hxl
        · exact Or.inl (List.mem_cons_self x seen)
        · exact Or.inr hxl

/-- `Array.from(new Set([...l, i]))` (page.tsx lines 378-383): the
completed-topics set insertion. -/
def jsSetInsert (l : List Nat) (i : Nat) : List Nat :=
  jsDedupAux [] (l ++ [i])

/-- Inserting the same index twice yields the same list as inserting it
once. -/
theorem jsSetInsert_idem (l : List Nat) (i : Nat) :
    jsSetInsert (jsSetInsert l i) i = jsSetInsert l i := by
  have hmem : i ∈ jsDedupAux [] (l ++ [i]) := by
    rw [mem_jsDedupAux]
    exact ⟨List.mem_append_right l (List.mem_cons_self i []), by simp⟩
  rw [jsSetInsert, jsSetInsert]
  rw [jsDedupAux_append _ _ _ (Or.inr hmem)]
  exact jsDedupAux_fixed _ [] (jsDedupAux_nodup _ _) (by simp)

/-- A module as stored inside the course document's `modules` array, projected
onto the fields the progress writes read and mutate. -/
structure StoredModule where
  id : Nat
  progress : Nat
  completedTopics : List Nat
deriving DecidableEq, Repr

/-- The module part of `markTopicAsCompleted` (page.tsx lines 378-389): the
topic index is added to the stored `completedTopics` as a set, and the module
progress becomes `Math.round((completedCount / totalTopics) * 100)`, with
`totalTopics` the session's topic-list length. -/
def markTopicCompletedModule (m : StoredModule) (topicIndex totalTopics : Nat) :
    StoredModule :=
  let ct := jsSetInsert m.completedTopics topicIndex
  { m with completedTopics := ct, progress := jsRound (100 * ct.length) totalTopics }

/-- In-place update of the first module whose `id` matches
(`modules.findIndex(m => m.id.toString() === moduleId.toString())` followed by
mutation at that index); `none` when no module matches (no write happens). -/
def updateModuleById : List StoredModule → Nat → (StoredModule → StoredModule) →
    Option (List StoredModule)
  | [], _, _ => none
  | m :: ms, mid, f =>
    if m.id = mid then some (f m :: ms)
    else (updateModuleById ms mid f).map (fun r => m :: r)

/-- The course-level progress expression
`Math.round(totalProgress / modules.length)` (page.tsx lines 391-395 and
584-588) as a function of the module-progress list: on an empty list the
JavaScript expression is `Math.round(0/0) = NaN`, modelled as `none`. -/
def courseProgressJS (ps : List Nat) : Option Nat :=
  if ps.length = 0 then none else some (jsRound ps.sum ps.length)

/-- `markTopicAsCompleted` (page.tsx lines 363-412): guarded by
`topicIndex >= topics.length` (early return), re-reads the course document,
updates the matching module's completed set and progress, recomputes the
course progress over the updated module array, and persists both. The result
is the persisted `(modules, progress)` pair, `none` when no write happens. -/
def markTopicAsCompleted (modules : List StoredModule)
    (mid topicIndex totalTopics : Nat) : Option (List StoredModule × Nat) :=
  if totalTopics ≤ topicIndex then none
  else
    match updateModuleById modules mid
        (fun m => markTopicCompletedModule m topicIndex totalTopics) with
    | none => none
    | some updated =>
      some (updated, jsRound (updated.map StoredModule.progress).sum updated.length)

/-- `updateModuleProgress` (page.tsx lines 570-603): assigns the given
progress to the matching module and recomputes the course progress over the
updated module array; both are persisted in one write. -/
def updateModuleProgress (modules : List StoredModule) (mid p : Nat) :
    Option (List StoredModule × Nat) :=
  match updateModuleById modules mid (fun m => { m with progress := p }) with
  | none => none
  | some updated =>
    some (updated, jsRound (updated.map StoredModule.progress).sum updated.length)

/-- A successful by-id update never returns the empty list. -/
theorem updateModuleById_ne_nil (ms : List StoredModule) (mid : Nat)
    (f : StoredModule → StoredModule) (r : List StoredModule)
    (h : updateModuleById ms mid f = some r) : r ≠ [] := by
  induction ms generalizing r with
  | nil => simp [updateModuleById] at h
  | cons m ms ih =>
    rw [updateModuleById] at h
    by_cases hm : m.id = mid
    · rw [if_pos hm] at h
      cases h
      simp
    · rw [if_neg hm] at h
      cases hup : updateModuleById ms mid f with
      | none => rw [hup] at h; simp at h
      | some r' =>
        rw [hup] at h
        simp only [Option.map_some'] at h
        cases h
        simp

/-- A by-id update is idempotent whenever the per-module function preserves
the module id and is itself idempotent. -/
theorem updateModuleById_idem (ms : List StoredModule) (mid : Nat)
    (f : StoredModule → StoredModule) (hid : ∀ m, (f m).id = m.id)
    (hff : ∀ m, f (f m) = f m) : ∀ r, updateModuleById ms mid f = some r →
    updateModuleById r mid f = some r := by
  induction ms with
  | nil => intro r h; simp [updateModuleById] at h
  | cons m ms ih =>
    intro r h
    rw [updateModuleById] at h
    by_cases hm : m.id = mid
    · rw [if_pos hm] at h
      cases h
      rw [updateModuleById, if_pos (by rw [hid m]; exact hm), hff m]
    · rw [if_neg hm] at h
      cases hup : updateModuleById ms mid f with
      | none => rw [hup] at h; simp at h
      | some r' =>
        rw [hup] at h
        simp only [Option.map_some'] at h
        cases h
        rw [updateModuleById, if_neg hm, ih r' hup]
        rfl

/-- A successful by-id update contains the image of some module whose id
matches. -/
theorem updateModuleById_hit (ms : List StoredModule) (mid : Nat)
    (f : StoredModule → StoredModule) (r : List StoredModule)
    (h : updateModuleById ms mid f = some r) : ∃ m, m.id = mid ∧ f m ∈ r := by
  induction ms generalizing r with
  | nil => simp [updateModuleById] at h
  | cons m ms ih =>
    rw [updateModuleById] at h
    by_cases hm : m.id = mid
    · rw [if_pos hm] at h
      cases h
      exact ⟨m, hm, List.mem_cons_self _ _⟩
    · rw [if_neg hm] at h
      cases hup : updateModuleById ms mid f with
      | none => rw [hup] at h; simp at h
      | some r' =>
        rw [hup] at h
        simp only [Option.map_some'] at h
        cases h
        obtain ⟨m', hmid, hmem⟩ := ih r' hup
        exact ⟨m', hmid, List.mem_cons_of_mem m hmem⟩

/-- After a successful `markTopicAsCompleted` write, the persisted course
progress is the rounded average of the updated module progresses. -/
theorem markTopicAsCompleted_course_avg (modules : List StoredModule)
    (mid ti tt : Nat) (out : List StoredModule × Nat)
    (h : markTopicAsCompleted modules mid ti tt = some out) :
    courseProgressJS (out.1.map StoredModule.progress) = some out.2 := by
  rw [markTopicAsCompleted] at h
  by_cases hg : tt ≤ ti
  · rw [if_pos hg] at h; simp at h
  · rw [if_neg hg] at h
    cases hup : updateModuleById modules mid
        (fun m => markTopicCompletedModule m ti tt) with
    | none => rw [hup] at h; simp at h
    | some updated =>
      rw [hup] at h
      cases h
      have hne := updateModuleById_ne_nil _ _ _ _ hup
      have hlen : updated.length ≠ 0 := fun hl => hne (List.length_eq_zero.mp hl)
      rw [courseProgressJS, List.length_map, if_neg hlen]

/-- After a successful `updateModuleProgress` write, the persisted course
progress is the rounded average of the updated module progresses. -/
theorem updateModuleProgress_course_avg (modules : List StoredModule)
    (mid p : Nat) (out : List StoredModule × Nat)
    (h : updateModuleProgress modules mid p = some out) :
    courseProgressJS (out.1.map StoredModule.progress) = some out.2 := by
  rw [updateModuleProgress] at h
  cases hup : updateModuleById modules mid (fun m => { m with progress := p }) with
  | none => rw [hup] at h; simp at h
  | some updated =>
    rw [hup] at h
    cases h
    have hne := updateModuleById_ne_nil _ _ _ _ hup
    have hlen : updated.length ≠ 0 := fun hl => hne (List.length_eq_zero.mp hl)
    rw [courseProgressJS, List.length_map, if_neg hlen]

/-- CLAIM C4 counterexample. The claim asserts the course-level progress
function returns `0` on an empty module list; the code's expression
`Math.round(totalProgress / modules.length)` is `NaN` there (modelled as
`none`), not `0`. -/
theorem courseProgress_empty_is_NaN :
    courseProgressJS [] = none ∧ courseProgressJS [] ≠ some 0 := by
  exact ⟨rfl, by decide⟩

/-- CLAIM C4 amended. After every write that changes a module's progress —
topic completion via `markTopicAsCompleted` or direct assignment via
`updateModuleProgress` — the persisted course progress equals the rounded
average of the updated module-progress list (such a write only happens when
the module is found, so that list is never empty); the rounded average is
insensitive to the order of the modules. On an empty module list the code's
course-progress expression is `NaN`, not `0`. -/
theorem course_progress_rounded_average :
    (∀ modules mid ti tt out, markTopicAsCompleted modules mid ti tt = some out →
      courseProgressJS (out.1.map StoredModule.progress) = some out.2) ∧
    (∀ modules mid p out, updateModuleProgress modules mid p = some out →
      courseProgressJS (out.1.map StoredModule.progress) = some out.2) ∧
    (∀ ps qs : List Nat, ps.Perm qs → courseProgressJS ps = courseProgressJS qs) := by
  refine ⟨markTopicAsCompleted_course_avg, updateModuleProgress_course_avg, ?_⟩
  intro ps qs hperm
  rw [courseProgressJS, courseProgressJS, hperm.length_eq, hperm.sum_eq]

/-- Witness for the amended C4 theorem: completing topic 0 of 2 in module 1 of
a two-module course persists module progresses `[50, 50]` and course progress
`50`, the rounded average. -/
theorem course_progress_rounded_average_witness :
    courseProgressJS
        (([⟨1, 50, [0]⟩, ⟨2, 50, []⟩] : List StoredModule).map StoredModule.progress) =
      some 50 :=
  course_progress_rounded_average.1 [⟨1, 0, []⟩, ⟨2, 50, []⟩] 1 0 2
    ([⟨1, 50, [0]⟩, ⟨2, 50, []⟩], 50) rfl

/-- CLAIM C5. For every in-range topic index, applying `markTopicAsCompleted`
twice with the same index yields exactly the same persisted state — the same
`completedTopics` list, module progress and course progress — as applying it
once; moreover the updated module's progress is
`round(100 * |completedTopics| / totalTopics)` and its `completedTopics` has
no duplicates. -/
theorem markTopicAsCompleted_idempotent (modules : List StoredModule)
    (mid ti tt : Nat) (out : List StoredModule × Nat) (hrange : ti < tt)
    (h : markTopicAsCompleted modules mid ti tt = some out) :
    markTopicAsCompleted out.1 mid ti tt = some out ∧
    (∀ m : StoredModule,
      (markTopicCompletedModule m ti tt).progress =
        jsRound (100 * (markTopicCompletedModule m ti tt).completedTopics.length) tt ∧
      (markTopicCompletedModule m ti tt).completedTopics.Nodup) := by
  have hid : ∀ m : StoredModule, (markTopicCompletedModule m ti tt).id = m.id := by
    intro m; rfl
  have hff : ∀ m : StoredModule,
      markTopicCompletedModule (markTopicCompletedModule m ti tt) ti tt =
        markTopicCompletedModule m ti tt := by
    intro m
    simp only [markTopicCompletedModule, jsSetInsert_idem]
  constructor
  · rw [markTopicAsCompleted] at h
    rw [if_neg (Nat.not_le.mpr hrange)] at h
    cases hup : updateModuleById modules mid
        (fun m => markTopicCompletedModule m ti tt) with
    | none => rw [hup] at h; simp at h
    | some updated =>
      rw [hup] at h
      cases h
      rw [markTopicAsCompleted, if_neg (Nat.not_le.mpr hrange)]
      rw [updateModuleById_idem modules mid _ hid hff updated hup]
  · intro m
    exact ⟨rfl, jsDedupAux_nodup _ _⟩

/-- Witness for C5: completing topic 0 of module 1 twice leaves the persisted
state at exactly the single-application result. -/
theorem markTopicAsCompleted_idempotent_witness :
    markTopicAsCompleted [⟨1, 50, [0]⟩, ⟨2, 50, []⟩] 1 0 2 =
      some ([⟨1, 50, [0]⟩, ⟨2, 50, []⟩], 50) ∧
    (∀ m : StoredModule,
      (markTopicCompletedModule m 0 2).progress =
        jsRound (100 * (markTopicCompletedModule m 0 2).completedTopics.length) 2 ∧
      (markTopicCompletedModule m 0 2).completedTopics.Nodup) :=
  markTopicAsCompleted_idempotent [⟨1, 0, []⟩, ⟨2, 50, []⟩] 1 0 2
    ([⟨1, 50, [0]⟩, ⟨2, 50, []⟩], 50) (by decide) rfl

/-! ## Quiz resume: checkExistingQuiz (claim C6) -/

/-- A persisted attempt document as returned by the
`(userId, courseId, moduleId)` equality query (page.tsx lines 609-616), with
its document id and the fields the resume path reads. `completedAt` is the
stored timestamp (`new Date(completedAt || 0).getTime()` orders attempts by
this number). `feedback` and `questions` may be absent on legacy documents. -/
structure StoredAttempt where
  docId : String
  score : Int
  feedback : Option String
  answers : List (String × String)
  questions : Option (List QuizQRec)
  completedAt : Nat
deriving DecidableEq, Repr

/-- Selection of `quizSnapshot.docs.sort((a, b) => dateB - dateA)[0]`
(page.tsx lines 619-625): the first element achieving the maximum
`completedAt` (the sort is stable, so among ties the earliest query-order
document wins). -/
def selectLatest : List StoredAttempt → Option StoredAttempt
  | [] => none
  | a :: rest =>
    match selectLatest rest with
    | none => some a
    | some b => if b.completedAt > a.completedAt then some b else some a

/-- Placeholder question records synthesized from the answer keys
(page.tsx lines 635-638:
`Object.keys(quizData.answers || {}).map((qId, index) => ({id: qId, question: ...}))`). -/
def placeholderQuestionsAux (i : Nat) : List String → List QuizQRec
  | [] => []
  | k :: rest => ⟨k, "Question " ++ toString (i + 1)⟩ :: placeholderQuestionsAux (i + 1) rest

/-- Placeholder question list for an attempt without stored questions. -/
def placeholderQuestions (answers : List (String × String)) : List QuizQRec :=
  placeholderQuestionsAux 0 (answers.map Prod.fst)

/-- The in-memory quiz state restored by the resume path. -/
structure ResumedQuizState where
  quizId : String
  quizSubmitted : Bool
  quizScore : Int
  quizFeedback : String
  quizAnswers : List (String × String)
  quizQuestions : List QuizQRec
deriving DecidableEq, Repr

/-- The state written from the selected attempt (page.tsx lines 625-640):
document id, submitted flag, score, feedback (defaulted to `""`), answers, and
either the stored question array or synthesized placeholders. -/
def resumeStateOf (d : StoredAttempt) : ResumedQuizState where
  quizId := d.docId
  quizSubmitted := true
  quizScore := d.score
  quizFeedback := d.feedback.getD ""
  quizAnswers := d.answers
  quizQuestions :=
    match d.questions with
    | some qs => qs
    | none => placeholderQuestions d.answers

/-- `checkExistingQuiz` (page.tsx lines 605-651) on the queried attempt list:
nothing happens when the query is empty, otherwise the latest attempt's state
is restored. -/
def checkExistingQuiz (attempts : List StoredAttempt) : Option ResumedQuizState :=
  (selectLatest attempts).map resumeStateOf

/-- CLAIM C6. Whenever at least one persisted attempt matches the query, the
resume check selects an attempt from the list whose `completedAt` is maximal,
restores exactly that attempt's score, feedback, answers and questions, and —
when the selected attempt has no stored question array — synthesizes
placeholder question records from the keys of its answers map. -/
theorem checkExistingQuiz_selects_latest (attempts : List StoredAttempt)
    (h : attempts ≠ []) :
    ∃ d, d ∈ attempts ∧ selectLatest attempts = some d ∧
      (∀ e ∈ attempts, e.completedAt ≤ d.completedAt) ∧
      checkExistingQuiz attempts = some (resumeStateOf d) ∧
      (d.questions = none →
        (resumeStateOf d).quizQuestions = placeholderQuestions d.answers) := by
  induction attempts with
  | nil => exact absurd rfl h
  | cons a rest ih =>
    cases hrest : rest with
    | nil =>
      refine ⟨a, List.mem_cons_self a _, ?_, ?_, ?_, ?_⟩
      · rw [selectLatest, selectLatest]
      · intro e he
        rcases List.mem_cons.mp he with rfl | he'
        · exact le_refl _
        · simp at he'
      · rw [checkExistingQuiz, selectLatest, selectLatest]; rfl
      · intro hq; rw [resumeStateOf, hq]
    | cons b rest' =>
      subst hrest
      obtain ⟨d, hmem, hsel, hmax, _, _⟩ := ih (by simp)
      by_cases hcmp : d.completedAt > a.completedAt
      · refine ⟨d, List.mem_cons_of_mem a hmem, ?_, ?_, ?_, ?_⟩
        · rw [selectLatest, hsel]
          simp [hcmp]
        · intro e he
          rcases List.mem_cons.mp he with rfl | he'
          · exact le_of_lt hcmp
          · exact hmax e he'
        · rw [checkExistingQuiz, selectLatest, hsel]
          simp [hcmp]
        · intro hq; rw [resumeStateOf, hq]
      · refine ⟨a, List.mem_cons_self a _, ?_, ?_, ?_, ?_⟩
        · rw [selectLatest, hsel]
          simp [hcmp]
        · intro e he
          rcases List.mem_cons.mp he with rfl | he'
          · exact le_refl _
          · exact le_trans (hmax e he') (Nat.not_lt.mp hcmp)
        · rw [checkExistingQuiz, selectLatest, hsel]
          simp [hcmp]
        · intro hq; rw [resumeStateOf, hq]

/-- Witness for C6: of two attempts with `completedAt` 10 and 20 the later one
(a legacy attempt without stored questions) is selected, and its placeholder
questions are synthesized from its answer keys. -/
theorem checkExistingQuiz_selects_latest_witness :
    (∃ d, d ∈ [(⟨"a1", 60, some "old", [("q1", "x")], some [⟨"q1", "Q"⟩], 10⟩ : StoredAttempt),
               ⟨"a2", 85, none, [("q1", "y"), ("q2", "z")], none, 20⟩] ∧
      selectLatest [⟨"a1", 60, some "old", [("q1", "x")], some [⟨"q1", "Q"⟩], 10⟩,
                    ⟨"a2", 85, none, [("q1", "y"), ("q2", "z")], none, 20⟩] = some d ∧
      (∀ e ∈ [(⟨"a1", 60, some "old", [("q1", "x")], some [⟨"q1", "Q"⟩], 10⟩ : StoredAttempt),
              ⟨"a2", 85, none, [("q1", "y"), ("q2", "z")], none, 20⟩],
        e.completedAt ≤ d.completedAt) ∧
      checkExistingQuiz [⟨"a1", 60, some "old", [("q1", "x")], some [⟨"q1", "Q"⟩], 10⟩,
                         ⟨"a2", 85, none, [("q1", "y"), ("q2", "z")], none, 20⟩] =
        some (resumeStateOf d) ∧
      (d.questions = none →
        (resumeStateOf d).quizQuestions = placeholderQuestions d.answers)) ∧
    checkExistingQuiz [⟨"a1", 60, some "old", [("q1", "x")], some [⟨"q1", "Q"⟩], 10⟩,
                       ⟨"a2", 85, none, [("q1", "y"), ("q2", "z")], none, 20⟩] =
      some ⟨"a2", true, 85, "", [("q1", "y"), ("q2", "z")],
            [⟨"q1", "Question 1"⟩, ⟨"q2", "Question 2"⟩]⟩ :=
  ⟨checkExistingQuiz_selects_latest _ (by simp), by decide⟩

/-! ## Quiz submission outcome by score (claim C7) -/

/-- The JSON body returned by the quiz evaluator
(`POST /api/evaluate-module-quiz` → `{score, feedback, completionStatus}`). -/
structure EvalResponse where
  score : Int
  feedback : String
  completionStatus : String
deriving DecidableEq, Repr

/-- The side effects of a successful evaluation inside `handleSubmitQuiz`
(page.tsx lines 492-529): the attempt document written to
`quizResults/{quizId}`, and the module-progress write (`some 100` when
`updateModuleProgress(100)` is invoked, `none` when no module write happens). -/
structure SubmitEffects where
  persisted : QuizResultDoc
  moduleProgressWrite : Option Nat
deriving DecidableEq, Repr

/-- `handleSubmitQuiz` after a successful evaluation (page.tsx lines 497-529):
for `score >= 70` the attempt is stored with the evaluator-returned
`completionStatus` verbatim and `updateModuleProgress(100)` runs; otherwise
the attempt is stored with the literal `"needs_review"` and no module write
happens. -/
def handleSubmitQuizEffects (resp : EvalResponse) (uid cid mid : String)
    (answers : List (String × String)) (questions : List QuizQRec) (now : Nat) :
    SubmitEffects :=
  if resp.score ≥ 70 then
    ⟨⟨uid, cid, mid, resp.score, resp.feedback, resp.completionStatus,
      answers, questions, now⟩, some 100⟩
  else
    ⟨⟨uid, cid, mid, resp.score, resp.feedback, "needs_review",
      answers, questions, now⟩, none⟩

/-- CLAIM C7 counterexample. The claim asserts that a passing score such as 72
persists `completionStatus = "completed"`. The code stores the evaluator's
`completionStatus` field verbatim on the passing branch: when the evaluator
returns score 72 with `completionStatus = "needs_review"`, that is what is
persisted. -/
theorem passing_score_status_not_forced_completed :
    (handleSubmitQuizEffects ⟨72, "good work", "needs_review"⟩ "u" "c" "m"
        [] [] 0).persisted.completionStatus = "needs_review" ∧
    (handleSubmitQuizEffects ⟨72, "good work", "needs_review"⟩ "u" "c" "m"
        [] [] 0).persisted.completionStatus ≠ "completed" := by
  exact ⟨rfl, by decide⟩

/-- CLAIM C7 amended. For every successful quiz evaluation: when the returned
score is at least 70, `updateModuleProgress(100)` runs — the matching stored
module's progress becomes 100 and the course progress is recomputed as the
rounded average of the updated module progresses — and the persisted attempt
carries the evaluator-returned `completionStatus` verbatim (it is not forced
to `"completed"`); when the returned score is below 70 (e.g. 40), the
persisted attempt's `completionStatus` is the literal `"needs_review"` and no
module-progress write happens, leaving the stored module progress
unchanged. -/
theorem quiz_submit_score_branches (resp : EvalResponse) (uid cid mid : String)
    (answers : List (String × String)) (questions : List QuizQRec) (now : Nat)
    (modules updated : List StoredModule) (nmid : Nat) (p : Nat) :
    (resp.score ≥ 70 →
      (handleSubmitQuizEffects resp uid cid mid answers questions now).moduleProgressWrite
          = some 100 ∧
      (handleSubmitQuizEffects resp uid cid mid answers questions now).persisted.completionStatus
          = resp.completionStatus ∧
      (updateModuleProgress modules nmid 100 = some (updated, p) →
        (∃ m ∈ updated, m.id = nmid ∧ m.progress = 100) ∧
        courseProgressJS (updated.map StoredModule.progress) = some p)) ∧
    (resp.score < 70 →
      (handleSubmitQuizEffects resp uid cid mid answers questions now).moduleProgressWrite
          = none ∧
      (handleSubmitQuizEffects resp uid cid mid answers questions now).persisted.completionStatus
          = "needs_review") := by
  constructor
  · intro h70
    refine ⟨?_, ?_, ?_⟩
    · rw [handleSubmitQuizEffects, if_pos h70]
    · rw [handleSubmitQuizEffects, if_pos h70]
    · intro hupd
      constructor
      · rw [updateModuleProgress] at hupd
        cases hcase : updateModuleById modules nmid
            (fun m => { m with progress := 100 }) with
        | none => rw [hcase] at hupd; simp at hupd
        | some r =>
          rw [hcase] at hupd
          simp only [Option.some.injEq, Prod.mk.injEq] at hupd
          obtain ⟨hr, _⟩ := hupd
          subst hr
          obtain ⟨m, hmid, hmem⟩ := updateModuleById_hit modules nmid _ r hcase
          exact ⟨{ m with progress := 100 }, hmem, hmid, rfl⟩
      · exact updateModuleProgress_course_avg modules nmid 100 (updated, p) hupd
  · intro hlt
    have hn : ¬ resp.score ≥ 70 := by omega
    exact ⟨by rw [handleSubmitQuizEffects, if_neg hn],
           by rw [handleSubmitQuizEffects, if_neg hn]⟩

/-- Witness for the amended C7 theorem: an evaluation returning score 72 with
status `"completed"` persists that status, triggers the module-progress write
of 100, and the course progress becomes the rounded average 50. -/
theorem quiz_submit_score_branches_witness :
    (handleSubmitQuizEffects ⟨72, "good", "completed"⟩ "u" "c" "m" [] [] 0).moduleProgressWrite
        = some 100 ∧
    (handleSubmitQuizEffects ⟨72, "good", "completed"⟩ "u" "c" "m" [] [] 0).persisted.completionStatus
        = "completed" ∧
    ((∃ m ∈ [(⟨1, 100, [0]⟩ : StoredModule), ⟨2, 0, []⟩], m.id = 1 ∧ m.progress = 100) ∧
      courseProgressJS
          (([⟨1, 100, [0]⟩, ⟨2, 0, []⟩] : List StoredModule).map StoredModule.progress) =
        some 50) := by
  have h := (quiz_submit_score_branches ⟨72, "good", "completed"⟩ "u" "c" "m" [] [] 0
    [⟨1, 50, [0]⟩, ⟨2, 0, []⟩] [⟨1, 100, [0]⟩, ⟨2, 0, []⟩] 1 50).1 (by decide)
  exact ⟨h.1, h.2.1, h.2.2 (by decide)⟩

/-! ## Module load error surface (claim C8) -/

/-- The error messages surfaced by `fetchModule` (page.tsx lines 200-328): the
course document may be missing, owned by another user, or lack the requested
module; `none` means the load proceeds. -/
def fetchModuleError (courseExists : Bool) (ownerId uid : String)
    (moduleFound : Bool) : Option String :=
  if courseExists then
    if ownerId = uid then
      if moduleFound then none else some "Module not found"
    else some "You don\x27t have permission to access this course"
  else some "Course not found"

/-- CLAIM C8 counterexample. The claim asserts the owner-mismatch error is
identical to the missing-course error. The code surfaces two different
messages, so the two cases are distinguishable to the caller. -/
theorem forbidden_differs_from_notFound :
    fetchModuleError true "alice" "bob" true =
      some "You don\x27t have permission to access this course" ∧
    fetchModuleError false "alice" "bob" true = some "Course not found" ∧
    fetchModuleError true "alice" "bob" true ≠
      fetchModuleError false "alice" "bob" true := by
  exact ⟨rfl, rfl, by decide⟩

/-- CLAIM C8 amended. Loading a module whose course document exists but is
owned by another user surfaces the permission message, while a missing course
document surfaces the not-found message; the two errors differ, so the caller
can distinguish the Forbidden case from the NotFound case. -/
theorem fetchModuleError_distinguishes_forbidden (ownerId uid : String)
    (moduleFound : Bool) (hne : ownerId ≠ uid) :
    fetchModuleError true ownerId uid moduleFound =
      some "You don\x27t have permission to access this course" ∧
    fetchModuleError false ownerId uid moduleFound = some "Course not found" ∧
    fetchModuleError true ownerId uid moduleFound ≠
      fetchModuleError false ownerId uid moduleFound := by
  refine ⟨?_, rfl, ?_⟩
  · rw [fetchModuleError, if_pos rfl, if_neg hne]
  · rw [fetchModuleError, if_pos rfl, if_neg hne, fetchModuleError]
    simp

/-- Witness for the amended C8 theorem at concrete users. -/
theorem fetchModuleError_distinguishes_forbidden_witness :
    fetchModuleError true "alice" "carol" true =
      some "You don\x27t have permission to access this course" ∧
    fetchModuleError false "alice" "carol" true = some "Course not found" ∧
    fetchModuleError true "alice" "carol" true ≠
      fetchModuleError false "alice" "carol" true :=
  fetchModuleError_distinguishes_forbidden "alice" "carol" true (by decide)

/-! ## Displayed module progress (claim C9) -/

/-- The progress-recompute effect (page.tsx lines 342-349): whenever the
current topic index, the module or the topic list changes, the displayed
progress becomes
`topics.length > 0 ? Math.round(((currentTopicIndex + 1) / topics.length) * 100) : 0`.
It reads only the viewing position and the topic count — never the
`completedTopics` set. -/
def displayProgress (currentTopicIndex topicsLen : Nat) : Nat :=
  if topicsLen > 0 then jsRound (100 * (currentTopicIndex + 1)) topicsLen else 0

/-- CLAIM C9. For a loaded module with a non-empty topic list the displayed
progress is the rounded percentage of the viewing position,
`round(100 * (index + 1) / topicCount)`; in particular a freshly opened
module (index 0) with `n` topics already displays `round(100 / n)` percent —
a positive value for every topic count up to 200 — even though no topic has
been completed, because the recompute reads the position only. -/
theorem displayProgress_viewing_position (idx n : Nat) (hn : 0 < n) :
    displayProgress idx n = jsRound (100 * (idx + 1)) n ∧
    displayProgress 0 n = jsRound 100 n ∧
    (n ≤ 200 → 0 < displayProgress 0 n) := by
  refine ⟨by rw [displayProgress, if_pos hn], by rw [displayProgress, if_pos hn], ?_⟩
  intro h200
  rw [displayProgress, if_pos hn, jsRound]
  have h1 : 1 ≤ (2 * (100 * (0 + 1)) + n) / (2 * n) := by
    rw [Nat.le_div_iff_mul_le (by omega)]
    omega
  omega

/-- Witness for C9: a fresh three-topic module displays 33 percent with
nothing completed. -/
theorem displayProgress_viewing_position_witness :
    (displayProgress 0 3 = jsRound (100 * (0 + 1)) 3 ∧
      displayProgress 0 3 = jsRound 100 3 ∧
      ((3 : Nat) ≤ 200 → 0 < displayProgress 0 3)) ∧
    displayProgress 0 3 = 33 :=
  ⟨displayProgress_viewing_position 0 3 (by decide), by decide⟩

/-! ## Existing-course check under store failure (claim C10) -/

/-- A course document reference as returned by the
`(userId, learningGoal)` equality query in the curation loader
(LoadingCuration.tsx `checkExistingCourse`). -/
structure CourseDocRef where
  docId : String
deriving DecidableEq, Repr

/-- Outcome of a store query: a document list, or a thrown store error. -/
inductive QueryOutcome (α : Type) where
  | okDocs (docs : List α)
  | storeFailure
deriving DecidableEq, Repr

/-- `checkExistingCourse` (LoadingCuration.tsx lines 30-50): the first
matching document's id when the query returns any, `null` when it returns
none — and `null` as well when the query throws (the catch logs and returns
`null`). -/
def checkExistingCourse (res : QueryOutcome CourseDocRef) : Option String :=
  match res with
  | .okDocs [] => none
  | .okDocs (d :: _) => some d.docId
  | .storeFailure => none

/-- The result of the course-generation flow (`generateCourse` in
LoadingCuration.tsx lines 62-159). -/
inductive CourseGenResult where
  | redirectExisting (courseId : String)
  | createdNew (title : String)
  | generationFailed
deriving DecidableEq, Repr

/-- `generateCourse` after the existing-course check: an existing course id
short-circuits to a redirect; otherwise the flow calls the curation backend
and, on success, persists a brand-new course document (`curation` is the
successful response's title, `none` when that call fails). -/
def generateCourse (res : QueryOutcome CourseDocRef) (curation : Option String) :
    CourseGenResult :=
  match checkExistingCourse res with
  | some cid => .redirectExisting cid
  | none =>
    match curation with
    | some title => .createdNew title
    | none => .generationFailed

/-- CLAIM C10. When the existing-course query fails with a store error, the
check returns `none` — exactly the result of a successful query with no
matching documents — so the generation flow behaves as if no course existed:
for every curation outcome it proceeds identically, and on a successful
curation it generates and persists a new course document instead of surfacing
the store failure. -/
theorem checkExistingCourse_storeFailure_proceeds (curation : Option String) :
    checkExistingCourse .storeFailure = none ∧
    checkExistingCourse .storeFailure = checkExistingCourse (.okDocs []) ∧
    generateCourse .storeFailure curation = generateCourse (.okDocs []) curation ∧
    (∀ title : String, generateCourse .storeFailure (some title) = .createdNew title) := by
  exact ⟨rfl, rfl, rfl, fun _ => rfl⟩

end PathGenius
